import Mathlib

/-!
Shallow embedding of the streaming core of the `pcie_audio` PCI driver
(`src/driver/src`): descriptor-ring construction, the per-direction stream
state, the PCM callbacks (`open`, `close`, `hw_params`, `prepare`,
`trigger`), the interrupt handler, hardware bring-up, and the Format mixer
control.  Machine integers are modelled as `Nat` reduced modulo `2^32`
(or `2^64` for DMA addresses) exactly where the C code computes in
`u32`/`u64`.  Hardware registers are modelled as a total map from a
register-name type to `Nat`; the numeric offsets in `pcie-audio.h` are all
distinct, so distinct names never alias (the two registers
`REG_DMA_CONFIG` and `REG_PCIE_CONFIG` are used by the source but their
offset macros are absent from the header; they are modelled as further
distinct registers).
-/

namespace PCIeAudio

/-- 2^32 reduction, the semantics of C `u32` arithmetic. -/
def u32 (n : Nat) : Nat := n % 2 ^ 32

/-- 2^64 reduction, the semantics of C `u64`/`dma_addr_t` arithmetic. -/
def u64 (n : Nat) : Nat := n % 2 ^ 64

/-- C unsigned 32-bit subtraction `a - b` (wraps below zero). -/
def u32sub (a b : Nat) : Nat := (u32 a + (2 ^ 32 - u32 b)) % 2 ^ 32

/-- The hardware registers touched by the embedded code, one constructor per
named offset of `pcie-audio.h` (all offsets there are pairwise distinct). -/
inductive Reg where
  | REG_CTRL_FORMAT
  | REG_CTRL_SAMPLE_FAMILY
  | REG_CTRL_TARGET_RATE
  | REG_CTRL_PB_ENABLE
  | REG_CTRL_CAP_ENABLE
  | REG_CTRL_RESET
  | REG_CTRL_SYNC_TIMEOUT
  | REG_DMA_PB_DESC_BASE
  | REG_DMA_PB_DESC_COUNT
  | REG_DMA_PB_SIZE
  | REG_DMA_PB_IRQ_EN
  | REG_DMA_PB_THRESHOLD
  | REG_DMA_CAP_DESC_BASE
  | REG_DMA_CAP_DESC_COUNT
  | REG_DMA_CAP_SIZE
  | REG_DMA_CAP_IRQ_EN
  | REG_DMA_CAP_THRESHOLD
  | REG_DMA_CONFIG
  | REG_PCIE_CONFIG
  | REG_STATUS_LOCKED
  | REG_STATUS_PB_UNDERRUN
  | REG_STATUS_CAP_OVERRUN
  | REG_STATUS_DMA_ERROR
  deriving DecidableEq, Repr

/-- Register file: current value of every register (always kept < 2^32). -/
def RegFile := Reg → Nat

/-- `pcie_audio_write`: store a 32-bit value into one register. -/
def wr (f : RegFile) (r : Reg) (v : Nat) : RegFile :=
  fun x => if x = r then u32 v else f x

/-- Post-reset register file: all registers read back as zero. -/
def regs0 : RegFile := fun _ => 0

/- DMA descriptor flags, from `pcie-audio.h`. -/

def DESC_FLAG_INT : Nat := 1
def DESC_FLAG_LAST : Nat := 2
def DESC_FLAG_WRAP : Nat := 4

/-- `DMA_DESC_COUNT` from `pcie-audio.h`: the fixed ring length used by
`setup_dma_descriptors`. -/
def DMA_DESC_COUNT : Nat := 32

/-- `sizeof(struct pcie_audio_dma_desc)`: 8 + 4 + 4 + 8 packed bytes. -/
def descStructSize : Nat := 24

/-- One DMA descriptor (`struct pcie_audio_dma_desc`). -/
structure DmaDesc where
  address : Nat
  length : Nat
  flags : Nat
  next : Nat
  deriving DecidableEq, Repr

/-- Descriptor `i` as initialized by the loop body of
`setup_dma_descriptors` (pcie-audio-pcm.c lines 33-43). -/
def mkDesc (buf periodBytes descDma i : Nat) : DmaDesc :=
  { address := u64 (buf + i * periodBytes)
    length := u32 periodBytes
    flags := (if i % 2 = 1 then DESC_FLAG_INT else 0) |||
             (if i = DMA_DESC_COUNT - 1 then DESC_FLAG_WRAP else 0)
    next := u64 (descDma + ((i + 1) % DMA_DESC_COUNT) * descStructSize) }

/-- The descriptor ring built by `setup_dma_descriptors`: always
`DMA_DESC_COUNT` entries, regardless of the configured period count. -/
def setup_dma_descriptors (buf periodBytes descDma : Nat) : List DmaDesc :=
  (List.range DMA_DESC_COUNT).map (mkDesc buf periodBytes descDma)

/-- Per-direction stream state (`struct pcie_audio_stream`).  The session
handle (`substream` pointer) is a nullable opaque id; the descriptor ring
is `none` when no ring is allocated. -/
structure Stream where
  substream : Option Nat
  desc : Option (List DmaDesc)
  descDma : Nat
  desc_count : Nat
  current_desc : Nat
  period_size : Nat
  buffer_size : Nat
  periods : Nat
  interrupts : Nat
  errors : Nat
  last_interrupt : Int
  latency : Int
  hw_ptr : Nat
  prev_hw_ptr : Nat
  channels : Nat
  rate : Nat
  deriving DecidableEq, Repr

/-- Zero-initialized stream, as after `snd_card_new` kzalloc. -/
def Stream.init : Stream :=
  { substream := none, desc := none, descDma := 0, desc_count := 0
    current_desc := 0, period_size := 0, buffer_size := 0, periods := 0
    interrupts := 0, errors := 0, last_interrupt := 0, latency := 0
    hw_ptr := 0, prev_hw_ptr := 0, channels := 0, rate := 0 }

/-- Device-wide statistics (the `stats` member of `struct pcie_audio`). -/
structure Stats where
  pb_underruns : Nat
  cap_overruns : Nat
  clock_unlocks : Nat
  dma_errors : Nat
  deriving DecidableEq, Repr

def Stats.init : Stats :=
  { pb_underruns := 0, cap_overruns := 0, clock_unlocks := 0, dma_errors := 0 }

/-- The driver state visible to the claims (`struct pcie_audio`). -/
structure Chip where
  regs : RegFile
  playback : Stream
  capture : Stream
  stats : Stats

/-- Freshly probed chip: zeroed driver struct over a post-reset register
file. -/
def chipInit : Chip :=
  { regs := regs0, playback := Stream.init, capture := Stream.init
    stats := Stats.init }

/-- Stream direction (`substream->stream` dispatch tag). -/
inductive Direction where
  | pb
  | cap
  deriving DecidableEq, Repr

def Chip.stream (c : Chip) : Direction → Stream
  | .pb => c.playback
  | .cap => c.capture

def Chip.setStream (c : Chip) : Direction → Stream → Chip
  | .pb, s => { c with playback := s }
  | .cap, s => { c with capture := s }

def enableReg : Direction → Reg
  | .pb => .REG_CTRL_PB_ENABLE
  | .cap => .REG_CTRL_CAP_ENABLE

def irqEnReg : Direction → Reg
  | .pb => .REG_DMA_PB_IRQ_EN
  | .cap => .REG_DMA_CAP_IRQ_EN

def statusReg : Direction → Reg
  | .pb => .REG_STATUS_PB_UNDERRUN
  | .cap => .REG_STATUS_CAP_OVERRUN

def descBaseReg : Direction → Reg
  | .pb => .REG_DMA_PB_DESC_BASE
  | .cap => .REG_DMA_CAP_DESC_BASE

def descCountReg : Direction → Reg
  | .pb => .REG_DMA_PB_DESC_COUNT
  | .cap => .REG_DMA_CAP_DESC_COUNT

def sizeReg : Direction → Reg
  | .pb => .REG_DMA_PB_SIZE
  | .cap => .REG_DMA_CAP_SIZE

def thresholdReg : Direction → Reg
  | .pb => .REG_DMA_PB_THRESHOLD
  | .cap => .REG_DMA_CAP_THRESHOLD

/-! ### PCM callbacks (pcie-audio-pcm.c) -/

/-- The hardware parameters a `hw_params` call carries (the fields of
`snd_pcm_hw_params` the driver reads).  `physical_width` is
`params_physical_width(params)`. -/
structure HwParams where
  buffer_bytes : Nat
  period_bytes : Nat
  periods : Nat
  channels : Nat
  rate : Nat
  physical_width : Nat
  deriving DecidableEq, Repr

/-- `pcie_audio_pcm_open` (lines 53-72): binds the session handle and
resets the performance counters; returns 0 unconditionally (second
component of the result is the C return value).  There is no check that a
session is already bound. -/
def pcie_audio_pcm_open (c : Chip) (d : Direction) (sub : Nat) (now : Int) :
    Chip × Int :=
  let st := c.stream d
  let st := { st with substream := some sub, last_interrupt := now
                      interrupts := 0, errors := 0, latency := 0 }
  (c.setStream d st, 0)

/-- `pcie_audio_pcm_close` (lines 74-93): frees the descriptor ring if
present and unbinds the session.  No register is written. -/
def pcie_audio_pcm_close (c : Chip) (d : Direction) : Chip :=
  let st := c.stream d
  let st := { st with desc := none, substream := none }
  c.setStream d st

/-- The successful path of `pcie_audio_hw_params` (lines 95-153): rebuild
the descriptor ring (`setup_dma_descriptors`), record the stream
configuration, and write the per-direction DMA registers and the
format/rate registers.  `descDma`/`buf` are the bus addresses the
allocators return.  No argument range is checked anywhere on this path. -/
def hwApply (c : Chip) (d : Direction) (p : HwParams) (descDma buf : Nat) :
    Chip :=
  let ring := setup_dma_descriptors buf p.period_bytes descDma
  let st := c.stream d
  let st := { st with
    desc := some ring, descDma := descDma, desc_count := DMA_DESC_COUNT
    period_size := p.period_bytes, buffer_size := p.buffer_bytes
    periods := p.periods, current_desc := 0
    channels := p.channels, rate := p.rate }
  let c := c.setStream d st
  let f := c.regs
  let f := wr f (descBaseReg d) descDma
  let f := wr f (descCountReg d) DMA_DESC_COUNT
  let f := wr f (sizeReg d) p.period_bytes
  let f := wr f (thresholdReg d) (p.period_bytes / 2)
  let format_ctrl := p.physical_width <<< 8 ||| u32sub p.channels 1
  let f := wr f .REG_CTRL_FORMAT format_ctrl
  let rate_ctrl := if p.rate % 44100 = 0 then 0 else 2147483648
  let base_rate := if rate_ctrl ≠ 0 then 48000 else 44100
  let multi := p.rate / base_rate
  let rate_ctrl := rate_ctrl ||| u32 (u32sub multi 1 <<< 8)
  let f := wr f .REG_CTRL_SAMPLE_FAMILY rate_ctrl
  let f := wr f .REG_CTRL_TARGET_RATE p.rate
  { c with regs := f }

/-- `pcie_audio_hw_params` with its only failure path: `allocOk = false`
models `snd_pcm_lib_malloc_pages`/`dma_alloc_coherent` failing (the C
function then returns `-ENOMEM`); `none` is that error.  No
`-EINVAL`/InvalidParameter path exists. -/
def pcie_audio_hw_params (allocOk : Bool) (c : Chip) (d : Direction)
    (p : HwParams) (descDma buf : Nat) : Option Chip :=
  if allocOk then some (hwApply c d p descDma buf) else none

/-- `pcie_audio_prepare` (lines 160-186): zero the position bookkeeping,
disable the direction and its IRQs, and clear its status field. -/
def pcie_audio_prepare (c : Chip) (d : Direction) : Chip :=
  let st := c.stream d
  let st := { st with current_desc := 0, hw_ptr := 0, prev_hw_ptr := 0 }
  let c := c.setStream d st
  let f := c.regs
  let f := wr f (enableReg d) 0
  let f := wr f (irqEnReg d) 0
  let f := wr f (statusReg d) 0xFFFFFFFF
  { c with regs := f }

/-- `pcie_audio_trigger` START/RESUME branch (lines 203-213): IRQ enable
first, then the direction enable; refresh the interrupt timestamp. -/
def trigger_start (c : Chip) (d : Direction) (now : Int) : Chip :=
  let f := wr (wr c.regs (irqEnReg d) 1) (enableReg d) 1
  let c := { c with regs := f }
  let st := c.stream d
  c.setStream d { st with last_interrupt := now }

/-- `pcie_audio_trigger` STOP/SUSPEND branch (lines 215-224): clear the
enable bit first, then the IRQ enable. -/
def trigger_stop (c : Chip) (d : Direction) : Chip :=
  { c with regs := wr (wr c.regs (enableReg d) 0) (irqEnReg d) 0 }

/-! ### Interrupt handler (pcie-audio-irq.c) -/

/-- Notifications the handler sends to the bound audio session
(`snd_pcm_stop_xrun` / `snd_pcm_period_elapsed`). -/
inductive Note where
  | pbXrun
  | pbPeriodElapsed
  | capXrun
  | capPeriodElapsed
  deriving DecidableEq, Repr

/-- Handler return value (`irqreturn_t`). -/
inductive IrqRet where
  | irqNone
  | irqHandled
  deriving DecidableEq, Repr

/-- The combined status word of lines 12-14: underrun bits in 0..7,
overrun bits shifted to 8.., DMA-error bits shifted to 16.., as `u32`. -/
def mkStatus (c : Chip) : Nat :=
  u32 (c.regs .REG_STATUS_PB_UNDERRUN |||
       u32 (c.regs .REG_STATUS_CAP_OVERRUN <<< 8) |||
       u32 (c.regs .REG_STATUS_DMA_ERROR <<< 16))

/-- Playback section of the handler (lines 20-39).  Returns the updated
chip and the notifications sent to the playback session. -/
def handlePb (now : Int) (status : Nat) (c : Chip) : Chip × List Note :=
  if status &&& 0xFF ≠ 0 then
    match c.playback.substream with
    | some _ =>
      let st := c.playback
      let st := { st with interrupts := st.interrupts + 1
                          latency := now - st.last_interrupt
                          last_interrupt := now }
      if status &&& 1 ≠ 0 then
        ({ c with playback := { st with errors := st.errors + 1 }
                  stats := { c.stats with
                             pb_underruns := c.stats.pb_underruns + 1 } },
         [Note.pbXrun])
      else
        ({ c with playback := st }, [Note.pbPeriodElapsed])
    | none => (c, [])
  else (c, [])

/-- Capture section of the handler (lines 42-61), symmetric with overrun
bit 8. -/
def handleCap (now : Int) (status : Nat) (c : Chip) : Chip × List Note :=
  if status &&& 0xFF00 ≠ 0 then
    match c.capture.substream with
    | some _ =>
      let st := c.capture
      let st := { st with interrupts := st.interrupts + 1
                          latency := now - st.last_interrupt
                          last_interrupt := now }
      if status &&& 256 ≠ 0 then
        ({ c with capture := { st with errors := st.errors + 1 }
                  stats := { c.stats with
                             cap_overruns := c.stats.cap_overruns + 1 } },
         [Note.capXrun])
      else
        ({ c with capture := st }, [Note.capPeriodElapsed])
    | none => (c, [])
  else (c, [])

/-- The baseline DMA global-configuration value (burst size 512,
scatter-gather enable, completion-IRQ enable, master enable), written both
at bring-up (pcie-audio-hw.c lines 39-44) and on the fault path of the
handler (pcie-audio-irq.c lines 72-76). -/
def DMA_CONFIG_BASELINE : Nat :=
  512 <<< 16 ||| 1 <<< 8 ||| 1 <<< 1 ||| 1

/-- DMA-error section of the handler (lines 63-77): on any DMA-error bit,
bump the statistic, hard-stop both directions, and rewrite the DMA
configuration baseline. -/
def handleDma (status : Nat) (c : Chip) : Chip :=
  if status &&& 0xFF0000 ≠ 0 then
    let f := wr c.regs .REG_CTRL_PB_ENABLE 0
    let f := wr f .REG_CTRL_CAP_ENABLE 0
    let f := wr f .REG_DMA_CONFIG DMA_CONFIG_BASELINE
    { c with regs := f
             stats := { c.stats with dma_errors := c.stats.dma_errors + 1 } }
  else c

/-- Unconditional write-one-to-clear of all three status fields
(lines 80-82). -/
def clearStatus (c : Chip) : Chip :=
  let f := wr c.regs .REG_STATUS_PB_UNDERRUN 0xFFFFFFFF
  let f := wr f .REG_STATUS_CAP_OVERRUN 0xFFFFFFFF
  let f := wr f .REG_STATUS_DMA_ERROR 0xFFFFFFFF
  { c with regs := f }

/-- `pcie_audio_interrupt` (lines 4-85): returns the updated chip, the
notifications sent, and the `irqreturn_t` value. -/
def pcie_audio_interrupt (c : Chip) (now : Int) : Chip × List Note × IrqRet :=
  let status := mkStatus c
  if status = 0 then (c, [], .irqNone)
  else
    let r1 := handlePb now status c
    let r2 := handleCap now status r1.1
    let c3 := handleDma status r2.1
    let c4 := clearStatus c3
    (c4, r1.2 ++ r2.2, .irqHandled)

/-! ### Hardware bring-up (pcie-audio-hw.c) -/

/-- Observable events of `pcie_audio_init_hw`: register writes and the
clock-timeout warning log. -/
inductive InitEvt where
  | write (r : Reg) (v : Nat)
  | warnClockTimeout
  deriving DecidableEq, Repr

/-- The bounded clock-lock poll of lines 62-68: `reads` is the successive
values the `REG_STATUS_LOCKED` reads observe before the 1000 ms deadline;
the loop exits early on the first nonzero value (`goto clock_locked`); an
exhausted list is the timeout.  Returns the trace of events and whether
lock was observed. -/
def pollLock : List Nat → List InitEvt × Bool
  | [] => ([InitEvt.warnClockTimeout], false)
  | v :: rest => if v ≠ 0 then ([], true) else pollLock rest

/-- The format value of lines 51-54: 24-bit depth, 8 channels. -/
def INIT_FORMAT : Nat := 24 <<< 8 ||| 7

/-- The sync/auto-rate value of lines 57-60. -/
def INIT_SYNC : Nat := 48000 <<< 16 ||| 1

/-- `pcie_audio_init_hw` (lines 27-88) as a trace of events plus the C
return value.  `linkSpeed` abstracts `chip->pci->current_state`.  On the
timeout path the function returns 0 after the warning, without reaching
the status-clearing writes of lines 83-85. -/
def pcie_audio_init_hw (reads : List Nat) (linkSpeed : Nat) :
    List InitEvt × Int :=
  let pre : List InitEvt :=
    [InitEvt.write .REG_CTRL_RESET 1,
     InitEvt.write .REG_CTRL_RESET 0,
     InitEvt.write .REG_DMA_CONFIG DMA_CONFIG_BASELINE,
     InitEvt.write .REG_DMA_PB_THRESHOLD 1024,
     InitEvt.write .REG_DMA_CAP_THRESHOLD 1024,
     InitEvt.write .REG_CTRL_FORMAT INIT_FORMAT,
     InitEvt.write .REG_CTRL_SYNC_TIMEOUT INIT_SYNC]
  let poll := pollLock reads
  if poll.2 then
    let pcieCfg := linkSpeed <<< 24 ||| 512 <<< 16 ||| 1 <<< 8 ||| 1
    (pre ++ poll.1 ++
     [InitEvt.write .REG_PCIE_CONFIG (u32 pcieCfg),
      InitEvt.write .REG_STATUS_PB_UNDERRUN 0xFFFFFFFF,
      InitEvt.write .REG_STATUS_CAP_OVERRUN 0xFFFFFFFF,
      InitEvt.write .REG_STATUS_DMA_ERROR 0xFFFFFFFF], 0)
  else
    (pre ++ poll.1, 0)

/-! ### Format mixer control (pcie-audio-control.c) -/

/-- `format_put` (lines 138-147): read-modify-write of bit 31 (the DSD
flag) of the format register; `item` is the enumerated control value. -/
def format_put (c : Chip) (item : Nat) : Chip :=
  let v := c.regs .REG_CTRL_FORMAT
  let v := v &&& 0x7FFFFFFF
  let v := v ||| u32 ((item &&& 1) <<< 31)
  { c with regs := wr c.regs .REG_CTRL_FORMAT v }

/-! ### Helper lemmas -/

/-- A conjunction of bits at position `i` in both operands makes a bitwise
AND nonzero. -/
lemma land_ne_zero_of_testBit (x m i : Nat) (hm : m.testBit i = true)
    (hx : x.testBit i = true) : x &&& m ≠ 0 := by
  intro h
  have h2 : (x &&& m).testBit i = true := by
    rw [Nat.testBit_land, hx, hm]; rfl
  rw [h, Nat.zero_testBit] at h2
  exact Bool.false_ne_true h2

/-- Bit 0 of the combined status word is bit 0 of the underrun register. -/
lemma mkStatus_testBit0 (c : Chip) :
    (mkStatus c).testBit 0 = (c.regs .REG_STATUS_PB_UNDERRUN).testBit 0 := by
  unfold mkStatus u32
  simp only [Nat.testBit_mod_two_pow, Nat.testBit_lor, Nat.testBit_shiftLeft]
  norm_num

/-- Bit 8 of the combined status word: bit 8 of the underrun register OR
bit 0 of the overrun register. -/
lemma mkStatus_testBit8 (c : Chip) :
    (mkStatus c).testBit 8 =
      ((c.regs .REG_STATUS_PB_UNDERRUN).testBit 8 ||
       (c.regs .REG_STATUS_CAP_OVERRUN).testBit 0) := by
  unfold mkStatus u32
  simp only [Nat.testBit_mod_two_pow, Nat.testBit_lor, Nat.testBit_shiftLeft]
  norm_num

/-- The playback section never touches the register file, the capture
stream, or the capture/DMA statistics. -/
lemma handlePb_frame (now : Int) (status : Nat) (c : Chip) :
    (handlePb now status c).1.regs = c.regs ∧
    (handlePb now status c).1.capture = c.capture ∧
    (handlePb now status c).1.stats.cap_overruns = c.stats.cap_overruns ∧
    (handlePb now status c).1.stats.dma_errors = c.stats.dma_errors := by
  unfold handlePb
  repeat' split
  all_goals exact ⟨rfl, rfl, rfl, rfl⟩

/-- The capture section never touches the register file, the playback
stream, or the playback/DMA statistics. -/
lemma handleCap_frame (now : Int) (status : Nat) (c : Chip) :
    (handleCap now status c).1.regs = c.regs ∧
    (handleCap now status c).1.playback = c.playback ∧
    (handleCap now status c).1.stats.pb_underruns = c.stats.pb_underruns ∧
    (handleCap now status c).1.stats.dma_errors = c.stats.dma_errors := by
  unfold handleCap
  repeat' split
  all_goals exact ⟨rfl, rfl, rfl, rfl⟩

/-- The DMA-error section never touches the streams or the non-DMA
statistics. -/
lemma handleDma_frame (status : Nat) (c : Chip) :
    (handleDma status c).playback = c.playback ∧
    (handleDma status c).capture = c.capture ∧
    (handleDma status c).stats.pb_underruns = c.stats.pb_underruns ∧
    (handleDma status c).stats.cap_overruns = c.stats.cap_overruns := by
  unfold handleDma
  split
  all_goals exact ⟨rfl, rfl, rfl, rfl⟩

/-- The playback section emits no capture notifications. -/
lemma handlePb_notes (now : Int) (status : Nat) (c : Chip) :
    (handlePb now status c).2 = [] ∨
    (handlePb now status c).2 = [Note.pbXrun] ∨
    (handlePb now status c).2 = [Note.pbPeriodElapsed] := by
  unfold handlePb
  repeat' split
  all_goals simp

/-- The capture section emits no playback notifications. -/
lemma handleCap_notes (now : Int) (status : Nat) (c : Chip) :
    (handleCap now status c).2 = [] ∨
    (handleCap now status c).2 = [Note.capXrun] ∨
    (handleCap now status c).2 = [Note.capPeriodElapsed] := by
  unfold handleCap
  repeat' split
  all_goals simp

/-- With a bound playback session, a nonzero playback field and the
underrun bit set, the playback section sends exactly the x-run
notification and bumps both counters. -/
lemma handlePb_bound_xrun {c : Chip} {now : Int} {status : Nat} {s : Nat}
    (hsub : c.playback.substream = some s) (h255 : status &&& 0xFF ≠ 0)
    (h1 : status &&& 1 ≠ 0) :
    (handlePb now status c).2 = [Note.pbXrun] ∧
    (handlePb now status c).1.stats.pb_underruns = c.stats.pb_underruns + 1 ∧
    (handlePb now status c).1.playback.errors = c.playback.errors + 1 := by
  unfold handlePb
  rw [if_pos h255, hsub]
  simp only []
  rw [if_pos h1]
  exact ⟨rfl, rfl, rfl⟩

/-- With a bound capture session, a nonzero capture field and the overrun
bit set, the capture section sends exactly the x-run notification and
bumps both counters. -/
lemma handleCap_bound_xrun {c : Chip} {now : Int} {status : Nat} {s : Nat}
    (hsub : c.capture.substream = some s) (hFF00 : status &&& 0xFF00 ≠ 0)
    (h256 : status &&& 256 ≠ 0) :
    (handleCap now status c).2 = [Note.capXrun] ∧
    (handleCap now status c).1.stats.cap_overruns = c.stats.cap_overruns + 1 ∧
    (handleCap now status c).1.capture.errors = c.capture.errors + 1 := by
  unfold handleCap
  rw [if_pos hFF00, hsub]
  simp only []
  rw [if_pos h256]
  exact ⟨rfl, rfl, rfl⟩

/-- With no bound playback session the playback section is the identity. -/
lemma handlePb_unbound {c : Chip} (now : Int) (status : Nat)
    (hsub : c.playback.substream = none) :
    handlePb now status c = (c, []) := by
  unfold handlePb
  split
  · rw [hsub]
  · rfl

/-- With no bound capture session the capture section is the identity. -/
lemma handleCap_unbound {c : Chip} (now : Int) (status : Nat)
    (hsub : c.capture.substream = none) :
    handleCap now status c = (c, []) := by
  unfold handleCap
  split
  · rw [hsub]
  · rfl

/-- `clearStatus` only writes the three status registers. -/
lemma clearStatus_frame (c : Chip) :
    (clearStatus c).playback = c.playback ∧
    (clearStatus c).capture = c.capture ∧
    (clearStatus c).stats = c.stats ∧
    (clearStatus c).regs .REG_CTRL_PB_ENABLE = c.regs .REG_CTRL_PB_ENABLE ∧
    (clearStatus c).regs .REG_CTRL_CAP_ENABLE = c.regs .REG_CTRL_CAP_ENABLE ∧
    (clearStatus c).regs .REG_DMA_CONFIG = c.regs .REG_DMA_CONFIG :=
  ⟨rfl, rfl, rfl, rfl, rfl, rfl⟩

/-- Chip component of the handler result when some status bit is set. -/
lemma interrupt_chip_eq (c : Chip) (now : Int) (h : mkStatus c ≠ 0) :
    (pcie_audio_interrupt c now).1 =
      clearStatus (handleDma (mkStatus c)
        (handleCap now (mkStatus c) (handlePb now (mkStatus c) c).1).1) := by
  unfold pcie_audio_interrupt
  rw [if_neg h]

/-- Notification list of the handler result when some status bit is set. -/
lemma interrupt_notes_eq (c : Chip) (now : Int) (h : mkStatus c ≠ 0) :
    (pcie_audio_interrupt c now).2.1 =
      (handlePb now (mkStatus c) c).2 ++
      (handleCap now (mkStatus c) (handlePb now (mkStatus c) c).1).2 := by
  unfold pcie_audio_interrupt
  rw [if_neg h]

/-- Unfolding of the handler when no status bit is set. -/
lemma interrupt_none (c : Chip) (now : Int) (h : mkStatus c = 0) :
    pcie_audio_interrupt c now = (c, [], IrqRet.irqNone) := by
  unfold pcie_audio_interrupt
  rw [if_pos h]

/-- On the fault branch, `handleDma` clears both enables, rewrites the
baseline, and bumps the statistic. -/
lemma u32_baseline : u32 DMA_CONFIG_BASELINE = DMA_CONFIG_BASELINE := rfl

lemma handleDma_fault {status : Nat} (c : Chip) (h : status &&& 0xFF0000 ≠ 0) :
    (handleDma status c).regs .REG_CTRL_PB_ENABLE = 0 ∧
    (handleDma status c).regs .REG_CTRL_CAP_ENABLE = 0 ∧
    (handleDma status c).regs .REG_DMA_CONFIG = DMA_CONFIG_BASELINE ∧
    (handleDma status c).stats.dma_errors = c.stats.dma_errors + 1 := by
  unfold handleDma
  rw [if_pos h]
  exact ⟨rfl, rfl, u32_baseline, rfl⟩

/-! ### Claims -/

/-- C6: for every interrupt event in which the underrun status bit is set
while a playback session is bound, the handler sends exactly one x-run
notification, increments the global underrun counter by 1 and the stream
error counter by 1, and does not also send a period-elapsed notification
for the same event (symmetrically for capture overrun). -/
theorem interrupt_xrun_exactly_once (c : Chip) (now : Int) :
    ((c.regs Reg.REG_STATUS_PB_UNDERRUN).testBit 0 = true →
     c.playback.substream.isSome = true →
      ((pcie_audio_interrupt c now).2.1.count Note.pbXrun = 1 ∧
       (pcie_audio_interrupt c now).2.1.count Note.pbPeriodElapsed = 0 ∧
       (pcie_audio_interrupt c now).1.stats.pb_underruns
         = c.stats.pb_underruns + 1 ∧
       (pcie_audio_interrupt c now).1.playback.errors
         = c.playback.errors + 1)) ∧
    ((c.regs Reg.REG_STATUS_CAP_OVERRUN).testBit 0 = true →
     c.capture.substream.isSome = true →
      ((pcie_audio_interrupt c now).2.1.count Note.capXrun = 1 ∧
       (pcie_audio_interrupt c now).2.1.count Note.capPeriodElapsed = 0 ∧
       (pcie_audio_interrupt c now).1.stats.cap_overruns
         = c.stats.cap_overruns + 1 ∧
       (pcie_audio_interrupt c now).1.capture.errors
         = c.capture.errors + 1)) := by
  constructor
  · intro hu hb
    obtain ⟨s, hsub⟩ := Option.isSome_iff_exists.mp hb
    have hbit : (mkStatus c).testBit 0 = true := by
      rw [mkStatus_testBit0]; exact hu
    have h1 : mkStatus c &&& 1 ≠ 0 :=
      land_ne_zero_of_testBit _ 1 0 (by decide) hbit
    have h255 : mkStatus c &&& 0xFF ≠ 0 :=
      land_ne_zero_of_testBit _ 0xFF 0 (by decide) hbit
    have hs0 : mkStatus c ≠ 0 := by
      intro h0
      rw [h0, Nat.zero_testBit] at hbit
      exact Bool.false_ne_true hbit
    obtain ⟨hn1, hstat1, herr1⟩ :=
      @handlePb_bound_xrun c now (mkStatus c) s hsub h255 h1
    have hcx : ∀ x : Note,
        ((handleCap now (mkStatus c)
          (handlePb now (mkStatus c) c).1).2).count Note.pbXrun = 0 ∧
        ((handleCap now (mkStatus c)
          (handlePb now (mkStatus c) c).1).2).count Note.pbPeriodElapsed = 0 := by
      intro _
      rcases handleCap_notes now (mkStatus c)
        (handlePb now (mkStatus c) c).1 with h | h | h <;> simp [h]
    refine ⟨?_, ?_, ?_, ?_⟩
    · rw [interrupt_notes_eq c now hs0, List.count_append, hn1,
        (hcx Note.pbXrun).1]
      decide
    · rw [interrupt_notes_eq c now hs0, List.count_append, hn1,
        (hcx Note.pbXrun).2]
      decide
    · rw [interrupt_chip_eq c now hs0, (clearStatus_frame _).2.2.1,
        (handleDma_frame _ _).2.2.1, (handleCap_frame _ _ _).2.2.1, hstat1]
    · rw [interrupt_chip_eq c now hs0, (clearStatus_frame _).1,
        (handleDma_frame _ _).1, (handleCap_frame _ _ _).2.1, herr1]
  · intro ho hb
    obtain ⟨s, hsub⟩ := Option.isSome_iff_exists.mp hb
    have hbit : (mkStatus c).testBit 8 = true := by
      rw [mkStatus_testBit8, ho]; simp
    have h256 : mkStatus c &&& 256 ≠ 0 :=
      land_ne_zero_of_testBit _ 256 8 (by decide) hbit
    have hFF00 : mkStatus c &&& 0xFF00 ≠ 0 :=
      land_ne_zero_of_testBit _ 0xFF00 8 (by decide) hbit
    have hs0 : mkStatus c ≠ 0 := by
      intro h0
      rw [h0, Nat.zero_testBit] at hbit
      exact Bool.false_ne_true hbit
    have hsub1 : (handlePb now (mkStatus c) c).1.capture.substream = some s := by
      rw [(handlePb_frame now (mkStatus c) c).2.1]; exact hsub
    obtain ⟨hn2, hstat2, herr2⟩ := handleCap_bound_xrun hsub1 hFF00 h256
    have hpx :
        ((handlePb now (mkStatus c) c).2).count Note.capXrun = 0 ∧
        ((handlePb now (mkStatus c) c).2).count Note.capPeriodElapsed = 0 := by
      rcases handlePb_notes now (mkStatus c) c with h | h | h <;> simp [h]
    refine ⟨?_, ?_, ?_, ?_⟩
    · rw [interrupt_notes_eq c now hs0, List.count_append, hn2, hpx.1]
      decide
    · rw [interrupt_notes_eq c now hs0, List.count_append, hn2, hpx.2]
      decide
    · rw [interrupt_chip_eq c now hs0, (clearStatus_frame _).2.2.1,
        (handleDma_frame _ _).2.2.2, hstat2, (handlePb_frame _ _ _).2.2.1]
    · rw [interrupt_chip_eq c now hs0, (clearStatus_frame _).2.1,
        (handleDma_frame _ _).2.1, herr2, (handlePb_frame _ _ _).2.1]

/-- Concrete interrupt event for the C6 witness: both underrun and
overrun bits set, both sessions bound. -/
def chipC6 : Chip :=
  { chipInit with
    regs := wr (wr regs0 .REG_STATUS_PB_UNDERRUN 1) .REG_STATUS_CAP_OVERRUN 1
    playback := { Stream.init with substream := some 1 }
    capture := { Stream.init with substream := some 2 } }

/-- Witness for C6 at a concrete event. -/
theorem interrupt_xrun_exactly_once_witness :
    (pcie_audio_interrupt chipC6 7).2.1.count Note.pbXrun = 1 ∧
    (pcie_audio_interrupt chipC6 7).2.1.count Note.pbPeriodElapsed = 0 ∧
    (pcie_audio_interrupt chipC6 7).1.stats.pb_underruns
      = chipC6.stats.pb_underruns + 1 ∧
    (pcie_audio_interrupt chipC6 7).2.1.count Note.capXrun = 1 ∧
    (pcie_audio_interrupt chipC6 7).1.stats.cap_overruns
      = chipC6.stats.cap_overruns + 1 := by
  have h := interrupt_xrun_exactly_once chipC6 7
  have h1 := h.1 (by decide) (by decide)
  have h2 := h.2 (by decide) (by decide)
  exact ⟨h1.1, h1.2.1, h1.2.2.1, h2.1, h2.2.2.1⟩

/-- C7: for every interrupt event with a DMA-error status bit set (the
0xFF0000 field of the combined status word), the handler increments the
DMA-error statistic, clears BOTH direction enable registers, and rewrites
the DMA global-configuration register to its baseline value. -/
theorem interrupt_dma_error_resets_engine (c : Chip) (now : Int)
    (h : mkStatus c &&& 0xFF0000 ≠ 0) :
    (pcie_audio_interrupt c now).1.stats.dma_errors
      = c.stats.dma_errors + 1 ∧
    (pcie_audio_interrupt c now).1.regs Reg.REG_CTRL_PB_ENABLE = 0 ∧
    (pcie_audio_interrupt c now).1.regs Reg.REG_CTRL_CAP_ENABLE = 0 ∧
    (pcie_audio_interrupt c now).1.regs Reg.REG_DMA_CONFIG
      = DMA_CONFIG_BASELINE := by
  have hs0 : mkStatus c ≠ 0 := by
    intro h0
    rw [h0] at h
    exact h (by decide)
  obtain ⟨he1, he2, he3, he4⟩ := handleDma_fault
    (handleCap now (mkStatus c) (handlePb now (mkStatus c) c).1).1 h
  refine ⟨?_, ?_, ?_, ?_⟩
  · rw [interrupt_chip_eq c now hs0, (clearStatus_frame _).2.2.1, he4,
      (handleCap_frame _ _ _).2.2.2, (handlePb_frame _ _ _).2.2.2]
  · rw [interrupt_chip_eq c now hs0, (clearStatus_frame _).2.2.2.1, he1]
  · rw [interrupt_chip_eq c now hs0, (clearStatus_frame _).2.2.2.2.1, he2]
  · rw [interrupt_chip_eq c now hs0, (clearStatus_frame _).2.2.2.2.2, he3]

/-- Concrete DMA-error event for the C7 witness. -/
def chipC7 : Chip :=
  { chipInit with regs := wr regs0 .REG_STATUS_DMA_ERROR 1 }

/-- Witness for C7 at a concrete event. -/
theorem interrupt_dma_error_resets_engine_witness :
    (pcie_audio_interrupt chipC7 0).1.stats.dma_errors
      = chipC7.stats.dma_errors + 1 ∧
    (pcie_audio_interrupt chipC7 0).1.regs Reg.REG_CTRL_PB_ENABLE = 0 ∧
    (pcie_audio_interrupt chipC7 0).1.regs Reg.REG_CTRL_CAP_ENABLE = 0 ∧
    (pcie_audio_interrupt chipC7 0).1.regs Reg.REG_DMA_CONFIG
      = DMA_CONFIG_BASELINE :=
  interrupt_dma_error_resets_engine chipC7 0 (by decide)

/-- C3 (amended): a status bit arriving for a direction with no bound
session is a complete no-op for that direction: no notification is sent,
the handler terminates normally, the stream state is untouched, and the
corresponding device-wide statistic is NOT incremented either (the
counters are only updated while a session is bound). -/
theorem interrupt_unbound_is_noop (c : Chip) (now : Int) :
    (c.playback.substream = none →
      ((pcie_audio_interrupt c now).2.1.count Note.pbXrun = 0 ∧
       (pcie_audio_interrupt c now).2.1.count Note.pbPeriodElapsed = 0 ∧
       (pcie_audio_interrupt c now).1.stats.pb_underruns
         = c.stats.pb_underruns ∧
       (pcie_audio_interrupt c now).1.playback = c.playback)) ∧
    (c.capture.substream = none →
      ((pcie_audio_interrupt c now).2.1.count Note.capXrun = 0 ∧
       (pcie_audio_interrupt c now).2.1.count Note.capPeriodElapsed = 0 ∧
       (pcie_audio_interrupt c now).1.stats.cap_overruns
         = c.stats.cap_overruns ∧
       (pcie_audio_interrupt c now).1.capture = c.capture)) := by
  by_cases hs0 : mkStatus c = 0
  · rw [interrupt_none c now hs0]
    exact ⟨fun _ => ⟨rfl, rfl, rfl, rfl⟩, fun _ => ⟨rfl, rfl, rfl, rfl⟩⟩
  · constructor
    · intro hnone
      have hpb := @handlePb_unbound c now (mkStatus c) hnone
      have hcx :
          ((handleCap now (mkStatus c)
            (handlePb now (mkStatus c) c).1).2).count Note.pbXrun = 0 ∧
          ((handleCap now (mkStatus c)
            (handlePb now (mkStatus c) c).1).2).count Note.pbPeriodElapsed
            = 0 := by
        rcases handleCap_notes now (mkStatus c)
          (handlePb now (mkStatus c) c).1 with h | h | h <;> simp [h]
      refine ⟨?_, ?_, ?_, ?_⟩
      · rw [interrupt_notes_eq c now hs0, List.count_append, hcx.1, hpb]
        simp
      · rw [interrupt_notes_eq c now hs0, List.count_append, hcx.2, hpb]
        simp
      · rw [interrupt_chip_eq c now hs0, (clearStatus_frame _).2.2.1,
          (handleDma_frame _ _).2.2.1, (handleCap_frame _ _ _).2.2.1, hpb]
      · rw [interrupt_chip_eq c now hs0, (clearStatus_frame _).1,
          (handleDma_frame _ _).1, (handleCap_frame _ _ _).2.1, hpb]
    · intro hnone
      have hnone1 : (handlePb now (mkStatus c) c).1.capture.substream
          = none := by
        rw [(handlePb_frame now (mkStatus c) c).2.1]; exact hnone
      have hcap := handleCap_unbound now (mkStatus c) hnone1
      have hpx :
          ((handlePb now (mkStatus c) c).2).count Note.capXrun = 0 ∧
          ((handlePb now (mkStatus c) c).2).count Note.capPeriodElapsed
            = 0 := by
        rcases handlePb_notes now (mkStatus c) c with h | h | h <;> simp [h]
      refine ⟨?_, ?_, ?_, ?_⟩
      · rw [interrupt_notes_eq c now hs0, List.count_append, hpx.1, hcap]
        simp
      · rw [interrupt_notes_eq c now hs0, List.count_append, hpx.2, hcap]
        simp
      · rw [interrupt_chip_eq c now hs0, (clearStatus_frame _).2.2.1,
          (handleDma_frame _ _).2.2.2, hcap, (handlePb_frame _ _ _).2.2.1]
      · rw [interrupt_chip_eq c now hs0, (clearStatus_frame _).2.1,
          (handleDma_frame _ _).2.1, hcap, (handlePb_frame _ _ _).2.1]

/-- Concrete late-underrun event with the playback session unbound. -/
def chipC3 : Chip :=
  { chipInit with regs := wr regs0 .REG_STATUS_PB_UNDERRUN 1 }

/-- Counterexample for C3 as stated: the underrun bit is set and the
session is unbound; the handler handles the event but the device-wide
underrun statistic does NOT increment, contradicting the claim that
"statistics still increment". -/
theorem interrupt_unbound_drops_statistic :
    chipC3.playback.substream = none ∧
    (chipC3.regs Reg.REG_STATUS_PB_UNDERRUN).testBit 0 = true ∧
    (pcie_audio_interrupt chipC3 0).2.2 = IrqRet.irqHandled ∧
    (pcie_audio_interrupt chipC3 0).1.stats.pb_underruns
      ≠ chipC3.stats.pb_underruns + 1 := by
  decide

/-- Witness for the amended C3 at the same concrete event. -/
theorem interrupt_unbound_is_noop_witness :
    (pcie_audio_interrupt chipC3 0).2.1.count Note.pbXrun = 0 ∧
    (pcie_audio_interrupt chipC3 0).2.1.count Note.pbPeriodElapsed = 0 ∧
    (pcie_audio_interrupt chipC3 0).1.stats.pb_underruns
      = chipC3.stats.pb_underruns ∧
    (pcie_audio_interrupt chipC3 0).1.playback = chipC3.playback :=
  (interrupt_unbound_is_noop chipC3 0).1 rfl

/-- C1: evaluation of the ring builder at the valid configuration
`period_bytes = 4096`, `period_count = 8` (total buffer 32768 ≤ 262144).
The ring has `DMA_DESC_COUNT = 32` descriptors, not `period_count = 8`,
and descriptor 8 covers bytes starting at `buffer_base + 32768`, one past
the end of the 8-period buffer. -/
theorem setup_ring_ignores_period_count :
    (setup_dma_descriptors 0 4096 0).length = DMA_DESC_COUNT ∧
    DMA_DESC_COUNT = 32 ∧
    (32 : Nat) ≠ 8 ∧
    ((setup_dma_descriptors 0 4096 0).getD 8 (mkDesc 0 0 0 0)).address
      = 8 * 4096 ∧
    8 * 4096 = 32768 ∧
    ((setup_dma_descriptors 0 4096 0).getD 31 (mkDesc 0 0 0 0)).flags
      = DESC_FLAG_INT ||| DESC_FLAG_WRAP := by
  refine ⟨?_, rfl, by decide, ?_, rfl, ?_⟩
  · decide
  · decide
  · decide

/-- C2 counterexample: at `channels = 9` (outside the claimed range
`channels ≤ 8`, all other parameters in range), `hw_params` does not fail
with any error: it succeeds and writes the format register, so the claim
"fails with InvalidParameter before any register write" is false here. -/
def pC2bad : HwParams :=
  { buffer_bytes := 32768, period_bytes := 4096, periods := 8
    channels := 9, rate := 48000, physical_width := 24 }

theorem hw_params_accepts_out_of_range :
    pC2bad.channels = 9 ∧
    ¬ pC2bad.channels ≤ 8 ∧
    (pcie_audio_hw_params true chipInit .pb pC2bad 0 0).isSome = true ∧
    ((pcie_audio_hw_params true chipInit .pb pC2bad 0 0).getD chipInit).regs
      Reg.REG_CTRL_FORMAT = 6152 ∧
    chipInit.regs Reg.REG_CTRL_FORMAT = 0 := by
  decide

/-- C2 (amended): `hw_params` performs no range validation at all.  For
every parameter record (in range or not), when allocation succeeds it
returns success and unconditionally writes the per-direction DMA size and
threshold registers, the format register, and the target-rate register;
no InvalidParameter error path exists (the only failure is allocation). -/
theorem hw_params_performs_no_validation (c : Chip) (d : Direction)
    (p : HwParams) (dma buf : Nat) :
    pcie_audio_hw_params true c d p dma buf = some (hwApply c d p dma buf) ∧
    (hwApply c d p dma buf).regs (sizeReg d) = u32 p.period_bytes ∧
    (hwApply c d p dma buf).regs (thresholdReg d)
      = u32 (p.period_bytes / 2) ∧
    (hwApply c d p dma buf).regs Reg.REG_CTRL_FORMAT
      = u32 (p.physical_width <<< 8 ||| u32sub p.channels 1) ∧
    (hwApply c d p dma buf).regs Reg.REG_CTRL_TARGET_RATE = u32 p.rate ∧
    ((hwApply c d p dma buf).stream d).desc
      = some (setup_dma_descriptors buf p.period_bytes dma) := by
  cases d <;> exact ⟨rfl, rfl, rfl, rfl, rfl, rfl⟩

/-- C4 (amended): `open` always succeeds: it binds the given session
handle (overwriting any existing binding) and resets the interrupt/error
counters, the latency, and the last-interrupt timestamp.  No AlreadyOpen
check exists. -/
theorem pcm_open_always_binds (c : Chip) (d : Direction) (sub : Nat)
    (now : Int) :
    (pcie_audio_pcm_open c d sub now).2 = 0 ∧
    ((pcie_audio_pcm_open c d sub now).1.stream d).substream = some sub ∧
    ((pcie_audio_pcm_open c d sub now).1.stream d).interrupts = 0 ∧
    ((pcie_audio_pcm_open c d sub now).1.stream d).errors = 0 ∧
    ((pcie_audio_pcm_open c d sub now).1.stream d).latency = 0 ∧
    ((pcie_audio_pcm_open c d sub now).1.stream d).last_interrupt = now := by
  cases d <;> exact ⟨rfl, rfl, rfl, rfl, rfl, rfl⟩

/-- Chip with a playback session already bound, for the C4
counterexample. -/
def chipC4 : Chip := (pcie_audio_pcm_open chipInit .pb 1 0).1

/-- C4 counterexample: with a session already bound to playback, a second
`open` does not fail with AlreadyOpen: it returns 0 and silently replaces
the binding. -/
theorem pcm_open_no_already_open_check :
    chipC4.playback.substream = some 1 ∧
    (pcie_audio_pcm_open chipC4 .pb 2 0).2 = 0 ∧
    (pcie_audio_pcm_open chipC4 .pb 2 0).1.playback.substream = some 2 := by
  decide

/-- The configuration of claim C8: rate 96000, 24-bit, stereo. -/
def pC8 : HwParams :=
  { buffer_bytes := 32768, period_bytes := 4096, periods := 8
    channels := 2, rate := 96000, physical_width := 24 }

/-- Chip state after `hw_params` with the C8 configuration. -/
def chipC8 : Chip := hwApply chipInit .pb pC8 0 0

/-- C8: after configure(rate 96000, 24-bit, 2 channels), the format
register reads back bit-depth 24 (bits 15..8, as the diagnostics
decoder reads it) and channels-minus-one 1 (low byte), with the DSD bit
clear; the target-rate register reads back 96000; and the sample-family
register encodes the 48 kHz family (bit 31 set, since 96000 is not
divisible by 44100) with multiplier field 1, decoding to multiplier 2,
consistent with 96000 = 48000 × 2. -/
theorem roundtrip_96k_24bit_stereo :
    (chipC8.regs Reg.REG_CTRL_FORMAT >>> 8) &&& 0xFF = 24 ∧
    chipC8.regs Reg.REG_CTRL_FORMAT &&& 0xFF = 1 ∧
    (chipC8.regs Reg.REG_CTRL_FORMAT).testBit 31 = false ∧
    chipC8.regs Reg.REG_CTRL_TARGET_RATE = 96000 ∧
    (chipC8.regs Reg.REG_CTRL_SAMPLE_FAMILY).testBit 31 = true ∧
    (chipC8.regs Reg.REG_CTRL_SAMPLE_FAMILY >>> 8) &&& 0xFF = 1 ∧
    (((chipC8.regs Reg.REG_CTRL_SAMPLE_FAMILY >>> 8) &&& 0xFF) + 1) * 48000
      = 96000 := by
  decide

/-- C10: every successful `hw_params` call writes the format register
wholesale as `(physical_width << 8) | (channels - 1)` with bit 31 equal
to 0, so the DSD-mode flag is always cleared by configuring a stream,
regardless of the previous register value (in particular of any DSD
setting written via `format_put`).  The bounds reflect the C types: a
nonzero 32-bit channel count and a sample width well below 2^23. -/
theorem hw_params_clears_dsd_flag (c : Chip) (d : Direction) (p : HwParams)
    (dma buf : Nat) (h1 : 1 ≤ p.channels) (h2 : p.channels ≤ 2 ^ 31)
    (h3 : p.physical_width < 2 ^ 23) :
    (hwApply c d p dma buf).regs Reg.REG_CTRL_FORMAT
      = (p.physical_width <<< 8 ||| (p.channels - 1)) ∧
    ((hwApply c d p dma buf).regs Reg.REG_CTRL_FORMAT).testBit 31
      = false := by
  have hsub : u32sub p.channels 1 = p.channels - 1 := by
    unfold u32sub u32
    omega
  have hreg : (hwApply c d p dma buf).regs Reg.REG_CTRL_FORMAT
      = u32 (p.physical_width <<< 8 ||| u32sub p.channels 1) := by
    cases d <;> rfl
  have hw8 : p.physical_width <<< 8 < 2 ^ 31 := by
    rw [Nat.shiftLeft_eq]
    omega
  have hch : p.channels - 1 < 2 ^ 31 := by omega
  have hlt : (p.physical_width <<< 8 ||| (p.channels - 1)) < 2 ^ 31 :=
    Nat.or_lt_two_pow hw8 hch
  have hmod : u32 (p.physical_width <<< 8 ||| (p.channels - 1))
      = (p.physical_width <<< 8 ||| (p.channels - 1)) := by
    unfold u32
    exact Nat.mod_eq_of_lt (by omega)
  constructor
  · rw [hreg, hsub, hmod]
  · rw [hreg, hsub, hmod]
    exact Nat.testBit_lt_two_pow hlt

/-- Chip whose format register has the DSD flag set via the Format mixer
control, for the C10 witness. -/
def chipC10 : Chip := format_put chipInit 1

/-- Parameters for the C10 witness. -/
def pC10 : HwParams :=
  { buffer_bytes := 32768, period_bytes := 4096, periods := 8
    channels := 2, rate := 48000, physical_width := 24 }

/-- Witness for C10: the DSD flag is set before `hw_params` and cleared
after. -/
theorem hw_params_clears_dsd_flag_witness :
    (chipC10.regs Reg.REG_CTRL_FORMAT).testBit 31 = true ∧
    (hwApply chipC10 .pb pC10 0 0).regs Reg.REG_CTRL_FORMAT
      = (24 <<< 8 ||| 1) ∧
    ((hwApply chipC10 .pb pC10 0 0).regs Reg.REG_CTRL_FORMAT).testBit 31
      = false :=
  ⟨by decide,
   (hw_params_clears_dsd_flag chipC10 .pb pC10 0 0 (by decide) (by decide)
     (by decide)).1,
   (hw_params_clears_dsd_flag chipC10 .pb pC10 0 0 (by decide) (by decide)
     (by decide)).2⟩

/-- The clock-lock poll observes lock exactly when some read is nonzero,
and emits the warning exactly on the timeout path. -/
lemma pollLock_spec (reads : List Nat) :
    (pollLock reads).2 = reads.any (fun v => decide (v ≠ 0)) ∧
    (pollLock reads).1
      = (if (pollLock reads).2 then [] else [InitEvt.warnClockTimeout]) := by
  induction reads with
  | nil => exact ⟨rfl, rfl⟩
  | cons v rest ih =>
    simp only [pollLock, List.any_cons]
    by_cases hv : v ≠ 0
    · simp [hv]
    · have hv0 : v = 0 := by omega
      subst hv0
      simpa using ih

/-- The seven writes common to every `pcie_audio_init_hw` path. -/
def initPre : List InitEvt :=
  [InitEvt.write .REG_CTRL_RESET 1,
   InitEvt.write .REG_CTRL_RESET 0,
   InitEvt.write .REG_DMA_CONFIG DMA_CONFIG_BASELINE,
   InitEvt.write .REG_DMA_PB_THRESHOLD 1024,
   InitEvt.write .REG_DMA_CAP_THRESHOLD 1024,
   InitEvt.write .REG_CTRL_FORMAT INIT_FORMAT,
   InitEvt.write .REG_CTRL_SYNC_TIMEOUT INIT_SYNC]

/-- The events of the clock-locked epilogue (pcie-audio-hw.c lines
73-85). -/
def lockedTail (linkSpeed : Nat) : List InitEvt :=
  [InitEvt.write .REG_PCIE_CONFIG
     (u32 (linkSpeed <<< 24 ||| 512 <<< 16 ||| 1 <<< 8 ||| 1)),
   InitEvt.write .REG_STATUS_PB_UNDERRUN 0xFFFFFFFF,
   InitEvt.write .REG_STATUS_CAP_OVERRUN 0xFFFFFFFF,
   InitEvt.write .REG_STATUS_DMA_ERROR 0xFFFFFFFF]

/-- Bring-up trace on a run where the clock locks. -/
lemma init_hw_trace_locked (reads : List Nat) (ls : Nat)
    (hp : (pollLock reads).2 = true) :
    pcie_audio_init_hw reads ls = (initPre ++ lockedTail ls, 0) := by
  have ht := (pollLock_spec reads).2
  rw [hp] at ht
  simp only [if_pos rfl] at ht
  simp [pcie_audio_init_hw, hp, ht, initPre, lockedTail]

/-- Bring-up trace on a run where the clock-lock wait times out. -/
lemma init_hw_trace_timeout (reads : List Nat) (ls : Nat)
    (hp : (pollLock reads).2 = false) :
    pcie_audio_init_hw reads ls
      = (initPre ++ [InitEvt.warnClockTimeout], 0) := by
  have ht := (pollLock_spec reads).2
  rw [hp] at ht
  simp only [Bool.false_eq_true, if_false] at ht
  simp [pcie_audio_init_hw, hp, ht, initPre]

/-- C9 (amended): on every execution path of hardware bring-up — the
clock-lock timeout path included — the reset pulse, the DMA
global-configuration baseline, the default thresholds and the default
format (max channels, 24-bit) are written, and the function returns
success (a timeout is logged and is non-fatal); but the status fields are
cleared only on the path where the clock locks: the timeout path warns
and returns without the status-clearing writes. -/
theorem init_hw_every_path (reads : List Nat) (linkSpeed : Nat) :
    (pcie_audio_init_hw reads linkSpeed).2 = 0 ∧
    (pcie_audio_init_hw reads linkSpeed).1.take 7 = initPre ∧
    ((InitEvt.write .REG_STATUS_PB_UNDERRUN 0xFFFFFFFF
        ∈ (pcie_audio_init_hw reads linkSpeed).1)
      ↔ reads.any (fun v => decide (v ≠ 0)) = true) ∧
    ((InitEvt.warnClockTimeout ∈ (pcie_audio_init_hw reads linkSpeed).1)
      ↔ reads.any (fun v => decide (v ≠ 0)) = false) := by
  have hb := (pollLock_spec reads).1
  rw [← hb]
  by_cases hp : (pollLock reads).2 = true
  · rw [init_hw_trace_locked reads linkSpeed hp, hp]
    refine ⟨rfl, List.take_left' rfl, ?_, ?_⟩
    · simp [initPre, lockedTail]
    · simp [initPre, lockedTail, INIT_FORMAT, INIT_SYNC]
  · have hp2 : (pollLock reads).2 = false := by
      revert hp
      cases (pollLock reads).2 <;> simp
    rw [init_hw_trace_timeout reads linkSpeed hp2, hp2]
    refine ⟨rfl, List.take_left' rfl, ?_, ?_⟩
    · simp [initPre, INIT_FORMAT, INIT_SYNC]
    · simp [initPre]

/-- C9 counterexample for the claim as stated: on the timeout path (a
poll window in which the lock bit always read zero) bring-up returns
success but never clears the status fields. -/
theorem init_hw_timeout_skips_status_clear :
    (pcie_audio_init_hw [0, 0, 0] 0).2 = 0 ∧
    InitEvt.warnClockTimeout ∈ (pcie_audio_init_hw [0, 0, 0] 0).1 ∧
    InitEvt.write .REG_STATUS_PB_UNDERRUN 0xFFFFFFFF
      ∉ (pcie_audio_init_hw [0, 0, 0] 0).1 ∧
    InitEvt.write .REG_STATUS_CAP_OVERRUN 0xFFFFFFFF
      ∉ (pcie_audio_init_hw [0, 0, 0] 0).1 ∧
    InitEvt.write .REG_STATUS_DMA_ERROR 0xFFFFFFFF
      ∉ (pcie_audio_init_hw [0, 0, 0] 0).1 := by
  decide

/-! ### Stream lifecycle and ring-free safety (C5) -/

/-- Lifecycle phase of one direction (spec §4.3). -/
inductive Phase where
  | closed
  | opened
  | configured
  | prepared
  | running
  | stopped
  deriving DecidableEq, Repr

/-- Operations of the streaming core: the ALSA-facing callbacks plus the
interrupt. -/
inductive Op where
  | openOp (d : Direction) (sub : Nat) (now : Int)
  | hwOp (d : Direction) (p : HwParams) (descDma buf : Nat)
  | prepOp (d : Direction)
  | startOp (d : Direction) (now : Int)
  | stopOp (d : Direction)
  | closeOp (d : Direction)
  | irqOp (now : Int)

/-- Machine state: driver state plus the lifecycle phase of each
direction. -/
structure MState where
  chip : Chip
  ph : Direction → Phase

def updPh (f : Direction → Phase) (d : Direction) (p : Phase) :
    Direction → Phase :=
  fun x => if x = d then p else f x

lemma updPh_eq (f : Direction → Phase) (d : Direction) (p : Phase) :
    updPh f d p d = p := by
  simp [updPh]

lemma updPh_ne {f : Direction → Phase} {d : Direction} {p : Phase}
    {x : Direction} (h : x ≠ d) : updPh f d p x = f x := by
  simp [updPh, h]

/-- Initial state: freshly probed device, both directions closed. -/
def MState.init : MState := ⟨chipInit, fun _ => Phase.closed⟩

/-- Modelled from the spec: the call ordering of the audio framework (an
excluded external collaborator, not part of src/) follows the §4.3 state
machine `Closed → Open → Configured → Prepared → Running ⇄ Stopped`, so
`hw_params`, `prepare` and `close` are never invoked on a Running
direction and `trigger` only as shown; the interrupt can fire at any
time.  Each constructor pairs that phase precondition with the embedded
driver operation from pcie-audio-pcm.c / pcie-audio-irq.c. -/
inductive Step : MState → Op → MState → Prop where
  | open_step {s : MState} {d : Direction} {sub : Nat} {now : Int}
      (h : s.ph d = Phase.closed) :
      Step s (.openOp d sub now)
        ⟨(pcie_audio_pcm_open s.chip d sub now).1, updPh s.ph d .opened⟩
  | hw_step {s : MState} {d : Direction} {p : HwParams} {descDma buf : Nat}
      (h1 : s.ph d ≠ Phase.closed) (h2 : s.ph d ≠ Phase.running) :
      Step s (.hwOp d p descDma buf)
        ⟨hwApply s.chip d p descDma buf, updPh s.ph d .configured⟩
  | prep_step {s : MState} {d : Direction}
      (h1 : s.ph d ≠ Phase.closed) (h2 : s.ph d ≠ Phase.running)
      (h3 : s.ph d ≠ Phase.opened) :
      Step s (.prepOp d)
        ⟨pcie_audio_prepare s.chip d, updPh s.ph d .prepared⟩
  | start_step {s : MState} {d : Direction} {now : Int}
      (h : s.ph d = Phase.prepared) :
      Step s (.startOp d now)
        ⟨trigger_start s.chip d now, updPh s.ph d .running⟩
  | stop_step {s : MState} {d : Direction} (h : s.ph d = Phase.running) :
      Step s (.stopOp d) ⟨trigger_stop s.chip d, updPh s.ph d .stopped⟩
  | close_step {s : MState} {d : Direction}
      (h1 : s.ph d ≠ Phase.closed) (h2 : s.ph d ≠ Phase.running) :
      Step s (.closeOp d)
        ⟨pcie_audio_pcm_close s.chip d, updPh s.ph d .closed⟩
  | irq_step {s : MState} {now : Int} :
      Step s (.irqOp now) ⟨(pcie_audio_interrupt s.chip now).1, s.ph⟩

/-- States reachable from device init under legal call sequences. -/
inductive Reachable : MState → Prop where
  | init : Reachable MState.init
  | step {s : MState} {op : Op} {s2 : MState} :
      Reachable s → Step s op s2 → Reachable s2

/-- The direction whose descriptor ring the operation would free in state
`s`: `close` and the rebuild path of `hw_params` free the ring when one
is present (pcm.c lines 17-21 and 84-89). -/
def freesRing (s : MState) : Op → Option Direction
  | .closeOp d => if (s.chip.stream d).desc.isSome then some d else none
  | .hwOp d _ _ _ => if (s.chip.stream d).desc.isSome then some d else none
  | _ => none

/-- Invariant: a direction not in the Running phase has its hardware
enable register clear. -/
def EnableInv (s : MState) : Prop :=
  ∀ d, s.ph d ≠ Phase.running → s.chip.regs (enableReg d) = 0

lemma open_regs (c : Chip) (d : Direction) (sub : Nat) (now : Int) :
    (pcie_audio_pcm_open c d sub now).1.regs = c.regs := by
  cases d <;> rfl

lemma close_regs (c : Chip) (d : Direction) :
    (pcie_audio_pcm_close c d).regs = c.regs := by
  cases d <;> rfl

lemma hwApply_enable (c : Chip) (d : Direction) (p : HwParams)
    (dma buf : Nat) (d' : Direction) :
    (hwApply c d p dma buf).regs (enableReg d')
      = c.regs (enableReg d') := by
  cases d <;> cases d' <;> rfl

lemma prepare_enable (c : Chip) (d d' : Direction) :
    (pcie_audio_prepare c d).regs (enableReg d')
      = if d' = d then 0 else c.regs (enableReg d') := by
  cases d <;> cases d' <;> rfl

lemma start_enable (c : Chip) (d : Direction) (now : Int) (d' : Direction) :
    (trigger_start c d now).regs (enableReg d')
      = if d' = d then 1 else c.regs (enableReg d') := by
  cases d <;> cases d' <;> rfl

lemma stop_enable (c : Chip) (d d' : Direction) :
    (trigger_stop c d).regs (enableReg d')
      = if d' = d then 0 else c.regs (enableReg d') := by
  cases d <;> cases d' <;> rfl

lemma handleDma_quiet {status : Nat} (c : Chip)
    (h : status &&& 0xFF0000 = 0) : handleDma status c = c := by
  unfold handleDma
  rw [if_neg (fun hne => hne h)]

lemma clearStatus_enable (c : Chip) (d' : Direction) :
    (clearStatus c).regs (enableReg d') = c.regs (enableReg d') := by
  cases d' <;> rfl

/-- The interrupt handler either leaves an enable register unchanged or
clears it (DMA-fault path). -/
lemma interrupt_enable (c : Chip) (now : Int) (d' : Direction) :
    (pcie_audio_interrupt c now).1.regs (enableReg d') = 0 ∨
    (pcie_audio_interrupt c now).1.regs (enableReg d')
      = c.regs (enableReg d') := by
  by_cases h0 : mkStatus c = 0
  · right
    rw [interrupt_none c now h0]
  · rw [interrupt_chip_eq c now h0, clearStatus_enable]
    by_cases hdma : mkStatus c &&& 0xFF0000 = 0
    · right
      rw [handleDma_quiet _ hdma, (handleCap_frame _ _ _).1,
        (handlePb_frame _ _ _).1]
    · left
      obtain ⟨he1, he2, _, _⟩ := handleDma_fault
        (handleCap now (mkStatus c) (handlePb now (mkStatus c) c).1).1 hdma
      cases d'
      · exact he1
      · exact he2

lemma enableInv_init : EnableInv MState.init := by
  intro d _
  cases d <;> rfl

lemma enableInv_step {s : MState} {op : Op} {s2 : MState}
    (hinv : EnableInv s) (hs : Step s op s2) : EnableInv s2 := by
  cases hs with
  | @open_step d sub now h =>
    intro d' hrun
    dsimp only at hrun ⊢
    rw [open_regs]
    apply hinv
    by_cases hd : d' = d
    · subst hd
      rw [h]
      decide
    · rw [updPh_ne hd] at hrun
      exact hrun
  | @hw_step d p dma buf h1 h2 =>
    intro d' hrun
    dsimp only at hrun ⊢
    rw [hwApply_enable]
    apply hinv
    by_cases hd : d' = d
    · subst hd
      exact h2
    · rw [updPh_ne hd] at hrun
      exact hrun
  | @prep_step d h1 h2 h3 =>
    intro d' hrun
    dsimp only at hrun ⊢
    rw [prepare_enable]
    by_cases hd : d' = d
    · rw [if_pos hd]
    · rw [if_neg hd]
      apply hinv
      rw [updPh_ne hd] at hrun
      exact hrun
  | @start_step d now h =>
    intro d' hrun
    dsimp only at hrun ⊢
    rw [start_enable]
    by_cases hd : d' = d
    · exfalso
      apply hrun
      subst hd
      exact updPh_eq s.ph d' Phase.running
    · rw [if_neg hd]
      apply hinv
      rw [updPh_ne hd] at hrun
      exact hrun
  | @stop_step d h =>
    intro d' hrun
    dsimp only at hrun ⊢
    rw [stop_enable]
    by_cases hd : d' = d
    · rw [if_pos hd]
    · rw [if_neg hd]
      apply hinv
      rw [updPh_ne hd] at hrun
      exact hrun
  | @close_step d h1 h2 =>
    intro d' hrun
    dsimp only at hrun ⊢
    rw [close_regs]
    apply hinv
    by_cases hd : d' = d
    · subst hd
      exact h2
    · rw [updPh_ne hd] at hrun
      exact hrun
  | @irq_step now =>
    intro d' hrun
    dsimp only at hrun ⊢
    rcases interrupt_enable s.chip now d' with h | h
    · exact h
    · rw [h]
      exact hinv d' hrun

/-- Every reachable state satisfies the enable invariant. -/
lemma reachable_enableInv {s : MState} (h : Reachable s) : EnableInv s := by
  induction h with
  | init => exact enableInv_init
  | step _ hs ih => exact enableInv_step ih hs

/-- C5: in every reachable state, whenever an operation releases
descriptor-ring storage (close, or the rebuild path of hw_params), the
owning direction's hardware enable register is already 0 at the moment of
the free: the ring is never freed while that direction's enable bit is
set. -/
theorem ring_free_requires_enable_clear {s : MState} {op : Op}
    {s2 : MState} {d : Direction} (hr : Reachable s) (hs : Step s op s2)
    (hf : freesRing s op = some d) :
    s.chip.regs (enableReg d) = 0 := by
  have hinv := reachable_enableInv hr
  cases hs with
  | @open_step d0 sub now h =>
    simp [freesRing] at hf
  | @hw_step d0 p dma buf h1 h2 =>
    have hd : d0 = d := by
      by_cases hsome : (s.chip.stream d0).desc.isSome
      · simpa [freesRing, hsome] using hf
      · simp [freesRing, hsome] at hf
    subst hd
    exact hinv d0 h2
  | @prep_step d0 h1 h2 h3 =>
    simp [freesRing] at hf
  | @start_step d0 now h =>
    simp [freesRing] at hf
  | @stop_step d0 h =>
    simp [freesRing] at hf
  | @close_step d0 h1 h2 =>
    have hd : d0 = d := by
      by_cases hsome : (s.chip.stream d0).desc.isSome
      · simpa [freesRing, hsome] using hf
      · simp [freesRing, hsome] at hf
    subst hd
    exact hinv d0 h2
  | @irq_step now =>
    simp [freesRing] at hf

/-- Concrete run for the C5 witness: open playback. -/
def mC5a : MState :=
  ⟨(pcie_audio_pcm_open MState.init.chip .pb 1 0).1,
   updPh MState.init.ph .pb .opened⟩

/-- Parameters of the concrete C5 run. -/
def pC5 : HwParams :=
  { buffer_bytes := 32768, period_bytes := 4096, periods := 8
    channels := 2, rate := 48000, physical_width := 24 }

/-- Concrete run for the C5 witness: after hw_params the ring exists. -/
def mC5b : MState :=
  ⟨hwApply mC5a.chip .pb pC5 0 0, updPh mC5a.ph .pb .configured⟩

/-- Concrete run for the C5 witness: state after close. -/
def mC5c : MState :=
  ⟨pcie_audio_pcm_close mC5b.chip .pb, updPh mC5b.ph .pb .closed⟩

lemma reachable_mC5b : Reachable mC5b :=
  Reachable.step
    (Reachable.step Reachable.init (Step.open_step rfl))
    (Step.hw_step (by decide) (by decide))

/-- Witness for C5: on the concrete run, close frees an existing ring and
the enable register is 0 at that moment. -/
theorem ring_free_requires_enable_clear_witness :
    freesRing mC5b (Op.closeOp .pb) = some .pb ∧
    mC5b.chip.regs (enableReg .pb) = 0 := by
  refine ⟨by decide, ?_⟩
  exact @ring_free_requires_enable_clear mC5b (Op.closeOp .pb) mC5c .pb
    reachable_mC5b (Step.close_step (by decide) (by decide)) (by decide)

/-- Witness for the amended C9, on both a timeout run and a locked run. -/
theorem init_hw_every_path_witness :
    (pcie_audio_init_hw [0, 0, 0] 0).2 = 0 ∧
    (pcie_audio_init_hw [0, 0, 0] 0).1.take 7 = initPre ∧
    (pcie_audio_init_hw [0, 1] 5).2 = 0 ∧
    (pcie_audio_init_hw [0, 1] 5).1.take 7 = initPre ∧
    (InitEvt.write .REG_STATUS_PB_UNDERRUN 0xFFFFFFFF
      ∈ (pcie_audio_init_hw [0, 1] 5).1) := by
  refine ⟨(init_hw_every_path [0, 0, 0] 0).1,
    (init_hw_every_path [0, 0, 0] 0).2.1,
    (init_hw_every_path [0, 1] 5).1,
    (init_hw_every_path [0, 1] 5).2.1,
    (init_hw_every_path [0, 1] 5).2.2.1.mpr (by decide)⟩

end PCIeAudio
